import Mathlib

/-!
Verification of the sensor-simulation core of `src/main.ino` (simulated
absorbance sensors).  The C++ `float` arithmetic is modelled over `ℝ`;
machine bytes are modelled as `ℤ` constrained to `[0, 255]`; the global
pseudo-random draw `(float) rand() / RAND_MAX` is passed in explicitly as a
real number `rand_frac ∈ [0, 1]`.
-/

set_option maxHeartbeats 1000000

noncomputable section

/-- Constant `POWER_LAW_CORRECTOR_GAMMA` (main.ino line 179). -/
def POWER_LAW_CORRECTOR_GAMMA : ℝ := 0.666

/-- Constant `POWER_LAW_CORRECTOR_C` (main.ino line 180). -/
def POWER_LAW_CORRECTOR_C : ℝ := 1

/-- Constant `MAX_A` (main.ino line 200): maximum expected absorbance. -/
def MAX_A : ℝ := 2

/-- Constant `to_byte = UINT8_MAX / MAX_A` (main.ino line 203). -/
def to_byte : ℝ := 255 / MAX_A

/-- Constant `simulation_dt_ms` (main.ino line 217). -/
def simulation_dt_ms : ℝ := 25

/-- Constant `MAX_MEMORY_SIZE` (main.ino line 222). -/
def MAX_MEMORY_SIZE : ℕ := 50

/-- Function `uniform` (main.ino lines 231-233):
`(((float) rand() / RAND_MAX) - 0.5) * sigma`, with the pseudo-random
fraction `rand_frac = (float) rand() / RAND_MAX ∈ [0, 1]` made explicit. -/
def uniform (rand_frac sigma : ℝ) : ℝ :=
  (rand_frac - 0.5) * sigma

/-- The clamp-and-round byte conversion used at main.ino lines 331 and 442:
`round(max(0, min(value * to_byte, UINT8_MAX)))`. -/
def quantize (value : ℝ) : ℤ :=
  round (max 0 (min (value * to_byte) 255))

/-- Class `SimulatedSensor` (main.ino lines 284-343): the five configuration
fields, plus the FIFO smoothing buffer `memory`.  The buffer is modelled as
the live region `memory[0..memory_size-1]` of the C array (the remaining
statically allocated slots are never read or written after
zero-initialization). -/
structure SimulatedSensor where
  memory_size : ℕ
  background : ℝ
  alpha : ℝ
  gamma : ℝ
  sigma : ℝ
  memory : List ℤ

/-- Constructor `SimulatedSensor::SimulatedSensor` (main.ino lines 295-305):
`memory_size = min((size_t) round(response_time_ms / simulation_dt_ms), MAX_MEMORY_SIZE)`
and a zero-initialized buffer (line 293). -/
def mkSimulatedSensor (response_time_ms background alpha gamma sigma : ℝ) :
    SimulatedSensor :=
  { memory_size := min (round (response_time_ms / simulation_dt_ms)).toNat MAX_MEMORY_SIZE
    background := background
    alpha := alpha
    gamma := gamma
    sigma := sigma
    memory := List.replicate
      (min (round (response_time_ms / simulation_dt_ms)).toNat MAX_MEMORY_SIZE) 0 }

/-- The response-time smoothing step of `SimulatedSensor::update`
(main.ino lines 313-320): if `memory_size ≥ 1`, accumulate
`memory[i] / to_byte` over the loop `for i in [0, memory_size)` and average
the instantaneous output in as one additional term. -/
def smooth_step (s : SimulatedSensor) (simulated_output : ℝ) : ℝ :=
  if 1 ≤ s.memory_size then
    ((List.range s.memory_size).foldl
        (fun acc i => acc + (s.memory.getD i 0 : ℝ) / to_byte) 0
      + simulated_output) / ((s.memory_size : ℝ) + 1)
  else simulated_output

/-- The pre-quantization value computed by `SimulatedSensor::update`
(main.ino lines 311-328): instantaneous response `pow(real_A, gamma) * alpha`,
smoothing, the background floor, then additive `abs(uniform(sigma))` noise. -/
def SimulatedSensor.pre_quantization (s : SimulatedSensor) (real_A rand_frac : ℝ) : ℝ :=
  (if smooth_step s (real_A ^ s.gamma * s.alpha) < s.background then s.background
   else smooth_step s (real_A ^ s.gamma * s.alpha))
  + |uniform rand_frac s.sigma|

/-- The memory-shift loop of `SimulatedSensor::update` (main.ino lines
334-338): `memory[i] = memory[i+1]` for `i < memory_size - 1`, then
`memory[memory_size-1] = simulated_byte_output`. -/
def shiftStore (mem : List ℤ) (size : ℕ) (out : ℤ) : List ℤ :=
  (List.range size).map (fun i => if i + 1 < size then mem.getD (i + 1) 0 else out)

/-- Method `SimulatedSensor::update` (main.ino lines 308-342): returns the
quantized byte output and the sensor with its shifted memory buffer. -/
def SimulatedSensor.update (s : SimulatedSensor) (real_A rand_frac : ℝ) :
    ℤ × SimulatedSensor :=
  (quantize (s.pre_quantization real_A rand_frac),
   { s with
      memory :=
        if 1 ≤ s.memory_size then
          shiftStore s.memory s.memory_size (quantize (s.pre_quantization real_A rand_frac))
        else s.memory })

/-- Folding a sensor through a list of ticks, each tick supplying an
absorbance value and a pseudo-random fraction. -/
def runUpdates (s : SimulatedSensor) (inputs : List (ℝ × ℝ)) : SimulatedSensor :=
  inputs.foldl (fun st p => (st.update p.1 p.2).2) s

/-- Spec-side formula (spec section 4.3 step 1):
`raw_response = sensitivity * absorbance^nonlinearity_exponent`. -/
def spec_raw_response (s : SimulatedSensor) (A : ℝ) : ℝ :=
  s.alpha * A ^ s.gamma

/-- Spec-side formula (spec section 4.3 step 2): the sum of the stored
history entries converted back to absorbance scale, with the new
instantaneous value averaged in as one additional term. -/
def spec_smoothed (s : SimulatedSensor) (A : ℝ) : ℝ :=
  if 1 ≤ s.memory_size then
    ((s.memory.map (fun m : ℤ => (m : ℝ) / to_byte)).sum + spec_raw_response s A)
      / ((s.memory_size : ℝ) + 1)
  else spec_raw_response s A

/-- The accumulator globals `accumulated_reads_value` and
`accumulated_reads_count` (main.ino lines 236-238). -/
structure Accumulator where
  accumulated_reads_value : ℝ
  accumulated_reads_count : ℕ

/-- Function `accumulate_read_physical_sensor` (main.ino lines 246-249),
with the physical reading supplied as an explicit argument. -/
def accumulate_read_physical_sensor (s : Accumulator) (reading : ℝ) : Accumulator :=
  ⟨s.accumulated_reads_value + reading, s.accumulated_reads_count + 1⟩

/-- Function `get_and_reset_accumulated_reads` (main.ino lines 254-259):
returns the average of the accumulated reads and the reset accumulator. -/
def get_and_reset_accumulated_reads (s : Accumulator) : ℝ × Accumulator :=
  (s.accumulated_reads_value / (s.accumulated_reads_count : ℝ), ⟨0, 0⟩)

/-- Constant `OUTPUT_CALIBRATED_A` (main.ino line 373). -/
def OUTPUT_CALIBRATED_A : Bool := false

/-- The per-tick sensor fan-out of `loop` (main.ino lines 446-449): one
`update` per configured sensor, in configuration order; each sensor is
paired with the pseudo-random fraction its noise draw consumes. -/
def update_all (sensors : List (SimulatedSensor × ℝ)) (A : ℝ) : List ℤ :=
  sensors.map (fun p => (p.1.update A p.2).1)

/-- The value bytes of one serial frame (main.ino lines 441-449): the
optional calibrated-absorbance byte followed by the sensor bytes. -/
def value_bytes (oc : Bool) (sensors : List (SimulatedSensor × ℝ)) (A : ℝ) : List ℤ :=
  (if oc then [quantize A] else []) ++ update_all sensors A

/-- The integrity-count byte `OUTPUT_CALIBRATED_A + n_sensors` written by
`Serial.write` (main.ino line 452), reduced modulo 256 by the byte cast. -/
def frame_count_byte (oc : Bool) (n : ℕ) : ℤ :=
  (((if oc then 1 else 0) + n : ℕ) : ℤ) % 256

/-- One complete serial frame emitted per tick (main.ino lines 441-454):
value bytes, then the count byte, then the newline byte `0x0A`. -/
def tick_frame (oc : Bool) (sensors : List (SimulatedSensor × ℝ)) (A : ℝ) : List ℤ :=
  value_bytes oc sensors A ++ [frame_count_byte oc sensors.length, 10]

/-- The static sensor configuration table `sensors` (main.ino lines 353-368). -/
def sensors_table : List SimulatedSensor :=
  [mkSimulatedSensor 3 0.04 3 1 0.2,
   mkSimulatedSensor 400 0.02 0.75 1 0.03,
   mkSimulatedSensor 0 0.03 0.5 1 0.03,
   mkSimulatedSensor 100 0.33 0.75 2 0.01]

/-- Constant `n_sensors` (main.ino line 370), derived from the table. -/
def n_sensors : ℕ := sensors_table.length

/-- The two calibration globals `physical_dark` and `physical_full`
(main.ino lines 155 and 158). -/
structure PhysicalCalibration where
  physical_dark : ℝ
  physical_full : ℝ

/-- The body of `physical_to_A` (main.ino lines 183-189), with the two
compile-time corrector constants taken as parameters (the calibration
procedure in the source comments directs instructors to change them):
`pow(max(0, log10f(physical_full / physical_value) / C), GAMMA)`.
This real-valued model is faithful to the `float` source exactly on the
operating domain `0 < physical_value` with `0 < physical_full`, where every
intermediate value is finite; the IEEE behaviour on the `physical_value ≤ 0`
edge (division by zero, logarithm of a non-positive ratio) is tracked
separately by `physical_to_A_ieee` below. -/
def physical_to_A_with (gammaCorr cCorr : ℝ) (cal : PhysicalCalibration)
    (physical_value : ℝ) : ℝ :=
  (max 0 (Real.logb 10 (cal.physical_full / physical_value) / cCorr)) ^ gammaCorr

/-- `physical_to_A` (main.ino lines 183-189) at the repository's constants. -/
def physical_to_A (cal : PhysicalCalibration) (physical_value : ℝ) : ℝ :=
  physical_to_A_with POWER_LAW_CORRECTOR_GAMMA POWER_LAW_CORRECTOR_C cal physical_value

/-- The IEEE `float` values relevant to the edge behaviour of
`physical_to_A`: an ordinary finite value, positive infinity, or NaN. -/
inductive FloatVal where
  | fin (x : ℝ)
  | posInf
  | nan

/-- The IEEE `float` behaviour of `physical_to_A` (main.ino lines 183-189)
for a positive `physical_full`, with the error values tracked rather than
collapsed into `ℝ`.  For `physical_value > 0` the ratio, its base-10
logarithm and the power are all finite, and the real-valued model applies.
At `physical_value = 0` the source computes `physical_full / 0.0f = +Inf`,
then `log10f(+Inf) = +Inf`; the Arduino macro `max(a,b) = ((a)>(b)?(a):(b))`
keeps `+Inf`, and `pow(+Inf, 0.666) = +Inf`.  For `physical_value < 0` the
ratio is negative, `log10f` returns NaN, the `max` macro returns its second
argument because `0 > NaN` is false, and `pow(NaN, 0.666) = NaN`. -/
def physical_to_A_ieee (cal : PhysicalCalibration) (physical_value : ℝ) : FloatVal :=
  if 0 < physical_value then .fin (physical_to_A cal physical_value)
  else if physical_value = 0 then .posInf
  else .nan

/-- C1 (refuting the claimed clamping of the `raw_average ≤ 0` edge): under
IEEE `float` semantics the source does not clamp that edge.  At
`raw_average = 0` it returns `+Inf` and for `raw_average < 0` it returns
NaN, both escaping the `max(0, ·)` clamp, so `calibrate` is not always a
finite value `≥ 0`.  Only on the positive operating domain is the result a
finite real `≥ 0`, and there the clamp does protect the
`raw_average ≥ full_level` edge. -/
theorem physical_to_A_ieee_edge :
    physical_to_A_ieee ⟨100, 900⟩ 0 = FloatVal.posInf ∧
    physical_to_A_ieee ⟨100, 900⟩ (-1) = FloatVal.nan ∧
    (∀ (cal : PhysicalCalibration) (x : ℝ), 0 < x →
      physical_to_A_ieee cal x = FloatVal.fin (physical_to_A cal x)) ∧
    (∀ (cal : PhysicalCalibration) (x : ℝ), 0 < x →
      0 ≤ physical_to_A cal x ∧
      (0 < cal.physical_full → cal.physical_full ≤ x → physical_to_A cal x = 0)) := by
  refine ⟨by norm_num [physical_to_A_ieee], by norm_num [physical_to_A_ieee],
    fun cal x hx => by rw [physical_to_A_ieee, if_pos hx], fun cal x hx => ⟨?_, ?_⟩⟩
  · exact Real.rpow_nonneg (le_max_left 0 _) _
  · intro hfull hle
    unfold physical_to_A physical_to_A_with POWER_LAW_CORRECTOR_C
    have hlog : Real.logb 10 (cal.physical_full / x) ≤ 0 :=
      Real.logb_nonpos (by norm_num) (div_nonneg hfull.le hx.le)
        ((div_le_one hx).mpr hle)
    rw [div_one, max_eq_left hlog,
      Real.zero_rpow (by unfold POWER_LAW_CORRECTOR_GAMMA; norm_num)]

/-- Witness for C1 at concrete positive inputs (full level 900; raw
averages 900 and 1000). -/
theorem physical_to_A_ieee_edge_witness :
    physical_to_A_ieee ⟨100, 900⟩ 900 = FloatVal.fin (physical_to_A ⟨100, 900⟩ 900) ∧
    physical_to_A ⟨100, 900⟩ 1000 = 0 :=
  ⟨physical_to_A_ieee_edge.2.2.1 ⟨100, 900⟩ 900 (by norm_num),
   (physical_to_A_ieee_edge.2.2.2 ⟨100, 900⟩ 1000 (by norm_num)).2
     (by norm_num) (by norm_num)⟩

/-- C6: for fixed calibration constants, `physical_to_A` is non-increasing on
the valid operating range (`0 < x1 ≤ x2` with a positive full-illumination
reference): higher raw intensity gives lower or equal absorbance. -/
theorem physical_to_A_antitone (cal : PhysicalCalibration) (x1 x2 : ℝ)
    (hfull : 0 < cal.physical_full) (hx1 : 0 < x1) (h12 : x1 ≤ x2) :
    physical_to_A cal x2 ≤ physical_to_A cal x1 := by
  unfold physical_to_A physical_to_A_with POWER_LAW_CORRECTOR_C
  have hx2 : 0 < x2 := lt_of_lt_of_le hx1 h12
  have hdiv : cal.physical_full / x2 ≤ cal.physical_full / x1 := by gcongr
  have hlog : Real.logb 10 (cal.physical_full / x2) ≤ Real.logb 10 (cal.physical_full / x1) :=
    Real.logb_le_logb_of_le (by norm_num) (by positivity) hdiv
  apply Real.rpow_le_rpow (le_max_left 0 _)
  · rw [div_one, div_one]
    exact max_le_max le_rfl hlog
  · unfold POWER_LAW_CORRECTOR_GAMMA; norm_num

/-- Witness for C6 at the concrete scenario full = 900, x1 = 90, x2 = 900. -/
theorem physical_to_A_antitone_witness :
    physical_to_A ⟨100, 900⟩ 900 ≤ physical_to_A ⟨100, 900⟩ 90 :=
  physical_to_A_antitone ⟨100, 900⟩ 90 900 (by norm_num) (by norm_num) (by norm_num)

/-- C7: with `full_level = 900` (and `dark_level = 100` recorded but unused),
`gamma_corrector = 1` and `scale_corrector = 1`, calibration maps a raw
average of 900 to absorbance 0 and a raw average of 90 to absorbance 1; and
in general the result depends only on `physical_full`, never on
`physical_dark` (for any corrector constants, hence also for the
repository's `physical_to_A`). -/
theorem physical_to_A_end_to_end :
    physical_to_A_with 1 1 ⟨100, 900⟩ 900 = 0 ∧
    physical_to_A_with 1 1 ⟨100, 900⟩ 90 = 1 ∧
    (∀ gammaCorr cCorr dark dark' full x,
      physical_to_A_with gammaCorr cCorr ⟨dark, full⟩ x
        = physical_to_A_with gammaCorr cCorr ⟨dark', full⟩ x) ∧
    (∀ dark dark' full x,
      physical_to_A ⟨dark, full⟩ x = physical_to_A ⟨dark', full⟩ x) := by
  refine ⟨?_, ?_, fun _ _ _ _ _ _ => rfl, fun _ _ _ _ => rfl⟩
  · unfold physical_to_A_with
    rw [show (900 : ℝ) / 900 = 1 by norm_num, Real.logb_one]
    rw [zero_div, max_self, Real.rpow_one]
  · unfold physical_to_A_with
    rw [show (900 : ℝ) / 90 = 10 by norm_num,
      Real.logb_self_eq_one (by norm_num : (1 : ℝ) < 10), div_one,
      max_eq_right (by norm_num : (0 : ℝ) ≤ 1), Real.rpow_one]

/-- Folding repeated addition over a list equals adding the sum of the
mapped list. -/
lemma foldl_add_map (g : ℕ → ℝ) :
    ∀ (l : List ℕ) (c : ℝ), l.foldl (fun a i => a + g i) c = c + (l.map g).sum := by
  intro l
  induction l with
  | nil => intro c; simp
  | cons i t ih => intro c; simp [ih, add_assoc]

/-- Reading a list through `getD` at every index below its length recovers
the list itself (mapped). -/
lemma map_range_getD {β : Type} (f : ℤ → β) :
    ∀ (mem : List ℤ),
      (List.range mem.length).map (fun i => f (mem.getD i 0)) = mem.map f := by
  intro mem
  induction mem with
  | nil => simp
  | cons a t ih =>
    rw [List.length_cons, List.range_succ_eq_map, List.map_cons, List.map_map]
    have h1 : ((fun i => f ((a :: t).getD i 0)) ∘ Nat.succ)
        = fun i => f (t.getD i 0) := by
      funext i
      simp [List.getD_cons_succ]
    rw [h1, ih]
    simp

/-- The background-floor conditional of main.ino lines 323-325 computes a
maximum. -/
lemma ite_lt_eq_max (x b : ℝ) : (if x < b then b else x) = max x b := by
  rcases lt_or_le x b with h | h
  · simp [h, max_eq_right h.le]
  · simp [not_lt.mpr h, max_eq_left h]

/-- Rounding is monotone. -/
lemma round_le_round_of_le {x y : ℝ} (h : x ≤ y) : round x ≤ round y := by
  rw [round_eq, round_eq]
  exact Int.floor_le_floor (by linarith)

/-- Quantization saturates at the top: any pre-quantization value at or
above `MAX_A` produces the byte 255. -/
lemma quantize_eq_255 (x : ℝ) (h : MAX_A ≤ x) : quantize x = 255 := by
  have hb : (255 : ℝ) ≤ x * to_byte := by
    unfold MAX_A at h
    unfold to_byte MAX_A
    nlinarith
  unfold quantize
  rw [min_eq_right hb, max_eq_right (by norm_num : (0 : ℝ) ≤ 255)]
  simp

/-- Quantization saturates at the bottom: any non-positive pre-quantization
value produces the byte 0. -/
lemma quantize_eq_0 (x : ℝ) (h : x ≤ 0) : quantize x = 0 := by
  have hb : x * to_byte ≤ 0 := by
    apply mul_nonpos_of_nonpos_of_nonneg h
    unfold to_byte MAX_A
    norm_num
  unfold quantize
  rw [min_eq_left (le_trans hb (by norm_num)), max_eq_left hb]
  simp

/-- Quantization always lands in the byte range. -/
lemma quantize_mem_byte_range (x : ℝ) : 0 ≤ quantize x ∧ quantize x ≤ 255 := by
  unfold quantize
  constructor
  · have h0 : round (0 : ℝ) ≤ round (max 0 (min (x * to_byte) 255)) :=
      round_le_round_of_le (le_max_left 0 _)
    simpa using h0
  · have h1 : round (max 0 (min (x * to_byte) 255)) ≤ round (255 : ℝ) :=
      round_le_round_of_le (max_le (by norm_num) (min_le_right _ _))
    simpa using h1

/-- C4: whenever the pre-quantization value of `update` reaches
`max_expected_absorbance` (`MAX_A = 2`), `update` returns exactly 255;
whenever it is non-positive, `update` returns 0; and the returned quantized
output always lies in `[0, 255]` (saturated, never wrapped). -/
theorem update_saturates (s : SimulatedSensor) (A r : ℝ) :
    (MAX_A ≤ s.pre_quantization A r → (s.update A r).1 = 255) ∧
    (s.pre_quantization A r ≤ 0 → (s.update A r).1 = 0) ∧
    0 ≤ (s.update A r).1 ∧ (s.update A r).1 ≤ 255 :=
  ⟨fun h => quantize_eq_255 _ h,
   fun h => quantize_eq_0 _ h,
   (quantize_mem_byte_range _).1,
   (quantize_mem_byte_range _).2⟩

/-- Witness for C4: a sensor whose background floor 3 exceeds `MAX_A`
saturates to 255, and one with background floor -1 and zero response
saturates to 0 (both with zero sensitivity and zero noise). -/
theorem update_saturates_witness :
    ((⟨0, 3, 0, 1, 0, []⟩ : SimulatedSensor).update 1 0).1 = 255 ∧
    ((⟨0, -1, 0, 1, 0, []⟩ : SimulatedSensor).update 1 0).1 = 0 := by
  constructor
  · apply (update_saturates ⟨0, 3, 0, 1, 0, []⟩ 1 0).1
    unfold SimulatedSensor.pre_quantization smooth_step uniform MAX_A
    norm_num
  · apply (update_saturates ⟨0, -1, 0, 1, 0, []⟩ 1 0).2.1
    unfold SimulatedSensor.pre_quantization smooth_step uniform
    norm_num [Real.rpow_one]

/-- C3 (refuting the claimed noise range): `uniform` reaches only half the
documented amplitude.  At the extreme pseudo-random draws it returns
`±sigma/2`, and for every draw in `[0, 1]` its magnitude is at most
`sigma/2`; in particular the documented extreme `+sigma` is unattainable for
any positive `sigma`. -/
theorem uniform_half_range :
    uniform 1 1 = 1 / 2 ∧ uniform 0 1 = -(1 / 2) ∧
    (∀ r sigma : ℝ, 0 ≤ r → r ≤ 1 → 0 ≤ sigma → |uniform r sigma| ≤ sigma / 2) := by
  refine ⟨by norm_num [uniform], by norm_num [uniform], ?_⟩
  intro r sigma hr0 hr1 hs
  unfold uniform
  rw [abs_mul, abs_of_nonneg hs]
  have h1 : |r - 0.5| ≤ 1 / 2 := by
    rw [abs_le]
    constructor <;> [linarith; linarith]
  calc |r - 0.5| * sigma ≤ (1 / 2) * sigma := by
        exact mul_le_mul_of_nonneg_right h1 hs
    _ = sigma / 2 := by ring

/-- Witness for C3 at the extreme draw `rand = RAND_MAX` with amplitude 1. -/
theorem uniform_half_range_witness : |uniform 1 1| ≤ 1 / 2 := by
  have h := uniform_half_range.2.2 1 1 (by norm_num) (by norm_num) (by norm_num)
  simpa using h

/-- The accumulation loop of `update` agrees with the spec-side smoothing
formula whenever the buffer holds exactly `memory_size` entries. -/
lemma smooth_step_eq_spec (s : SimulatedSensor) (A : ℝ)
    (hlen : s.memory.length = s.memory_size) :
    smooth_step s (A ^ s.gamma * s.alpha) = spec_smoothed s A := by
  unfold smooth_step spec_smoothed spec_raw_response
  rcases Nat.lt_or_ge s.memory_size 1 with h | h
  · rw [if_neg (by omega), if_neg (by omega), mul_comm]
  · rw [if_pos h, if_pos h, ← hlen,
      foldl_add_map (fun i => (s.memory.getD i 0 : ℝ) / to_byte) (List.range s.memory.length) 0,
      map_range_getD (fun m => (m : ℝ) / to_byte) s.memory,
      zero_add, mul_comm (A ^ s.gamma) s.alpha, hlen]

/-- C2: `update` computes, in order, the instantaneous response
`sensitivity * A^gamma`, the history smoothing `(converted history sum +
raw) / (history_depth + 1)` when `history_depth ≥ 1` (and no smoothing
otherwise), the background floor, the always-added `|noise|`, and the final
quantization; and for `history_depth = 0` the output is
`quantize(max(sensitivity * A^gamma, background) + |noise|)`, a function of
the current input only (independent of the memory contents, hence of all
past calls). -/
theorem update_matches_spec (s : SimulatedSensor) (A r : ℝ)
    (hlen : s.memory.length = s.memory_size) :
    (s.update A r).1
      = quantize (max (spec_smoothed s A) s.background + |uniform r s.sigma|) ∧
    (s.memory_size = 0 →
      (s.update A r).1
        = quantize (max (s.alpha * A ^ s.gamma) s.background + |uniform r s.sigma|) ∧
      ∀ mem' : List ℤ,
        ((SimulatedSensor.mk s.memory_size s.background s.alpha s.gamma s.sigma mem').update
            A r).1 = (s.update A r).1) := by
  have hmain : (s.update A r).1
      = quantize (max (spec_smoothed s A) s.background + |uniform r s.sigma|) := by
    unfold SimulatedSensor.update SimulatedSensor.pre_quantization
    rw [smooth_step_eq_spec s A hlen, ite_lt_eq_max]
  refine ⟨hmain, fun h0 => ⟨?_, ?_⟩⟩
  · rw [hmain]
    unfold spec_smoothed spec_raw_response
    rw [if_neg (by omega)]
  · intro mem'
    unfold SimulatedSensor.update SimulatedSensor.pre_quantization smooth_step
    simp only [h0]
    norm_num

/-- Witness for C2: a memoryless sensor (depth 0, sensitivity 1, linear,
noiseless) satisfies both the spec formula and, with an arbitrary non-empty
buffer `[7]` substituted, produces the same output. -/
theorem update_matches_spec_witness :
    ((⟨0, 0, 1, 1, 0, []⟩ : SimulatedSensor).update 1 1).1
      = quantize (max (spec_smoothed ⟨0, 0, 1, 1, 0, []⟩ 1) 0 + |uniform 1 0|) ∧
    ((SimulatedSensor.mk 0 0 1 1 0 [7]).update 1 1).1
      = ((⟨0, 0, 1, 1, 0, []⟩ : SimulatedSensor).update 1 1).1 :=
  ⟨(update_matches_spec ⟨0, 0, 1, 1, 0, []⟩ 1 1 rfl).1,
   ((update_matches_spec ⟨0, 0, 1, 1, 0, []⟩ 1 1 rfl).2 rfl).2 [7]⟩

/-- The index-shifting loop implements drop-oldest / append-newest on the
live region of the buffer. -/
lemma shiftStore_eq_tail_append :
    ∀ (mem : List ℤ) (out : ℤ), mem ≠ [] →
      shiftStore mem mem.length out = mem.tail ++ [out] := by
  intro mem out hne
  match mem with
  | a :: t =>
    unfold shiftStore
    rw [List.length_cons, List.range_succ, List.map_append]
    have hlast : (List.map
        (fun i => if i + 1 < t.length + 1 then (a :: t).getD (i + 1) 0 else out)
        [t.length]) = [out] := by
      simp
    have hmain : (List.map
        (fun i => if i + 1 < t.length + 1 then (a :: t).getD (i + 1) 0 else out)
        (List.range t.length)) = t := by
      have hcongr : ∀ i ∈ List.range t.length,
          (if i + 1 < t.length + 1 then (a :: t).getD (i + 1) 0 else out)
            = t.getD i 0 := by
        intro i hi
        rw [List.mem_range] at hi
        rw [if_pos (by omega)]
        simp [List.getD_cons_succ]
      rw [List.map_congr_left hcongr]
      have h2 := map_range_getD (fun m : ℤ => m) t
      simpa using h2
    rw [hlast, hmain]
    simp

/-- One update preserves the length of the live buffer region and leaves
the configuration (in particular `memory_size`) unchanged. -/
lemma update_preserves_memory_length (s : SimulatedSensor) (A r : ℝ)
    (hlen : s.memory.length = s.memory_size) :
    (s.update A r).2.memory.length = s.memory_size ∧
    (s.update A r).2.memory_size = s.memory_size := by
  refine ⟨?_, rfl⟩
  unfold SimulatedSensor.update
  rcases Nat.lt_or_ge s.memory_size 1 with h | h
  · simp only [if_neg (by omega : ¬ 1 ≤ s.memory_size)]
    exact hlen
  · simp only [if_pos h]
    unfold shiftStore
    simp

/-- Iterated updates keep the live buffer at exactly `memory_size` entries
and never change `memory_size`. -/
lemma runUpdates_memory_invariant :
    ∀ (inputs : List (ℝ × ℝ)) (s : SimulatedSensor),
      s.memory.length = s.memory_size →
      (runUpdates s inputs).memory.length = (runUpdates s inputs).memory_size ∧
      (runUpdates s inputs).memory_size = s.memory_size := by
  intro inputs
  induction inputs with
  | nil => intro s hs; exact ⟨hs, rfl⟩
  | cons p t ih =>
    intro s hs
    have hstep := update_preserves_memory_length s p.1 p.2 hs
    have hrec := ih (s.update p.1 p.2).2 (by rw [hstep.1, hstep.2])
    have hgoal : runUpdates s (p :: t) = runUpdates (s.update p.1 p.2).2 t := rfl
    rw [hgoal]
    exact ⟨hrec.1, by rw [hrec.2, hstep.2]⟩

/-- C5: a constructed sensor's `history_depth` (`memory_size`) never exceeds
the global maximum capacity `MAX_MEMORY_SIZE = 50`; after any number of
`update` calls the history length still equals (so never exceeds) the
configured `memory_size`; and each update with `memory_size ≥ 1` drops
exactly the oldest entry and appends the newly quantized output at the
newest position (FIFO order preserved). -/
theorem history_invariant :
    (∀ response_time_ms background alpha gamma sigma : ℝ,
      (mkSimulatedSensor response_time_ms background alpha gamma sigma).memory_size
        ≤ MAX_MEMORY_SIZE) ∧
    (∀ (response_time_ms background alpha gamma sigma : ℝ) (inputs : List (ℝ × ℝ)),
      (runUpdates (mkSimulatedSensor response_time_ms background alpha gamma sigma)
          inputs).memory.length
        ≤ (mkSimulatedSensor response_time_ms background alpha gamma sigma).memory_size) ∧
    (∀ (s : SimulatedSensor) (A r : ℝ),
      s.memory.length = s.memory_size → 1 ≤ s.memory_size →
      (s.update A r).2.memory = s.memory.tail ++ [(s.update A r).1]) := by
  refine ⟨?_, ?_, ?_⟩
  · intro rt b a g σ
    exact min_le_right _ _
  · intro rt b a g σ inputs
    have hinv := runUpdates_memory_invariant inputs (mkSimulatedSensor rt b a g σ)
      (by unfold mkSimulatedSensor; simp)
    rw [hinv.1, hinv.2]
  · intro s A r hlen hpos
    unfold SimulatedSensor.update
    simp only [if_pos hpos]
    rw [← hlen]
    exact shiftStore_eq_tail_append s.memory _ (by
      intro hnil
      rw [hnil] at hlen
      simp at hlen
      omega)

/-- Witness for C5: a depth-1 sensor holding `[5]` drops the 5 and appends
its newly quantized output. -/
theorem history_invariant_witness :
    ((⟨1, 0, 1, 1, 0, [5]⟩ : SimulatedSensor).update 1 1).2.memory
      = ([5] : List ℤ).tail ++ [((⟨1, 0, 1, 1, 0, [5]⟩ : SimulatedSensor).update 1 1).1] :=
  history_invariant.2.2 ⟨1, 0, 1, 1, 0, [5]⟩ 1 1 rfl (le_refl 1)

/-- C10: at construction the history buffer is zero-initialized across all
`memory_size` slots (so the smoothing always averages over exactly
`memory_size` slots: the history is effectively always full), and the very
first update of a depth-`d` sensor (`d ≥ 1`) produces the pre-floor smoothed
value `raw_response / (d + 1)` — a startup transient pulled toward zero. -/
theorem startup_transient :
    (∀ response_time_ms background alpha gamma sigma : ℝ,
      (mkSimulatedSensor response_time_ms background alpha gamma sigma).memory
        = List.replicate
            (mkSimulatedSensor response_time_ms background alpha gamma sigma).memory_size 0 ∧
      (mkSimulatedSensor response_time_ms background alpha gamma sigma).memory.length
        = (mkSimulatedSensor response_time_ms background alpha gamma sigma).memory_size) ∧
    (∀ (d : ℕ) (background alpha gamma sigma raw : ℝ), 1 ≤ d →
      smooth_step ⟨d, background, alpha, gamma, sigma, List.replicate d 0⟩ raw
        = raw / ((d : ℝ) + 1)) := by
  constructor
  · intro rt b a g σ
    exact ⟨rfl, by unfold mkSimulatedSensor; simp⟩
  · intro d b a g σ raw hd
    unfold smooth_step
    rw [if_pos hd]
    have hzero : (List.range d).foldl
        (fun acc i => acc + ((List.replicate d (0 : ℤ)).getD i 0 : ℝ) / to_byte) 0 = 0 := by
      have hgen := foldl_add_map
        (fun i => ((List.replicate d (0 : ℤ)).getD i 0 : ℝ) / to_byte)
        (List.range (List.replicate d (0 : ℤ)).length) 0
      rw [map_range_getD (fun m : ℤ => (m : ℝ) / to_byte) (List.replicate d (0 : ℤ))] at hgen
      simp only [List.length_replicate] at hgen
      rw [hgen]
      simp
    rw [hzero, zero_add]

/-- Witness for C10: the first update of a depth-1 sensor halves the
instantaneous response 5. -/
theorem startup_transient_witness :
    smooth_step ⟨1, 0, 0, 0, 0, List.replicate 1 0⟩ 5 = 5 / (((1 : ℕ) : ℝ) + 1) :=
  startup_transient.2 1 0 0 0 0 5 (le_refl 1)

/-- Accumulating a list of readings adds their sum to the running value and
their count to the running counter. -/
lemma foldl_accumulate :
    ∀ (rs : List ℝ) (v : ℝ) (c : ℕ),
      rs.foldl accumulate_read_physical_sensor ⟨v, c⟩
        = ⟨v + rs.sum, c + rs.length⟩ := by
  intro rs
  induction rs with
  | nil => intro v c; simp
  | cons x t ih =>
    intro v c
    have h1 : (x :: t).foldl accumulate_read_physical_sensor ⟨v, c⟩
        = t.foldl accumulate_read_physical_sensor ⟨v + x, c + 1⟩ := rfl
    rw [h1, ih]
    simp only [List.sum_cons, List.length_cons]
    congr 1
    · ring
    · omega

/-- C8: draining after any non-empty sequence of accumulated readings
returns their sum divided by their count and resets the accumulator to
empty; concretely, after `add(2); add(4); add(6)` the drain returns 4, and
a subsequent `add(10); drain()` returns 10, uninfluenced by prior state. -/
theorem accumulator_roundtrip (rs : List ℝ) (_hne : rs ≠ []) :
    (get_and_reset_accumulated_reads (rs.foldl accumulate_read_physical_sensor ⟨0, 0⟩)).1
      = rs.sum / (rs.length : ℝ) ∧
    (get_and_reset_accumulated_reads (rs.foldl accumulate_read_physical_sensor ⟨0, 0⟩)).2
      = ⟨0, 0⟩ ∧
    (get_and_reset_accumulated_reads
        (([2, 4, 6] : List ℝ).foldl accumulate_read_physical_sensor ⟨0, 0⟩)).1 = 4 ∧
    (get_and_reset_accumulated_reads
        (accumulate_read_physical_sensor
          (get_and_reset_accumulated_reads
            (([2, 4, 6] : List ℝ).foldl accumulate_read_physical_sensor ⟨0, 0⟩)).2
          10)).1 = 10 := by
  refine ⟨?_, ?_, ?_, ?_⟩
  · rw [foldl_accumulate]
    unfold get_and_reset_accumulated_reads
    simp
  · rw [foldl_accumulate]
    rfl
  · rw [foldl_accumulate]
    unfold get_and_reset_accumulated_reads
    norm_num
  · rw [foldl_accumulate]
    unfold get_and_reset_accumulated_reads accumulate_read_physical_sensor
    norm_num

/-- Witness for C8 on the concrete sequence 2, 4, 6. -/
theorem accumulator_roundtrip_witness :
    (get_and_reset_accumulated_reads
        (([2, 4, 6] : List ℝ).foldl accumulate_read_physical_sensor ⟨0, 0⟩)).1 = 4 :=
  (accumulator_roundtrip [2, 4, 6] (List.cons_ne_nil _ _)).2.2.1

/-- C9: each tick's frame contains exactly one quantized output per
configured sensor, in configuration order (one `update` per sensor),
optionally preceded by the calibrated-absorbance byte; and the count byte
written before the newline equals `(1 if calibrated-byte-enabled else 0) +
sensor_count`, which is exactly the number of value bytes in the frame. -/
theorem frame_integrity (oc : Bool) (sensors : List (SimulatedSensor × ℝ)) (A : ℝ)
    (hsize : (if oc then 1 else 0) + sensors.length < 256) :
    (update_all sensors A).length = sensors.length ∧
    update_all sensors A = sensors.map (fun p => (p.1.update A p.2).1) ∧
    (value_bytes oc sensors A).length = (if oc then 1 else 0) + sensors.length ∧
    frame_count_byte oc sensors.length = ((value_bytes oc sensors A).length : ℤ) ∧
    tick_frame oc sensors A
      = value_bytes oc sensors A ++ [frame_count_byte oc sensors.length, 10] := by
  have hlen : (value_bytes oc sensors A).length = (if oc then 1 else 0) + sensors.length := by
    unfold value_bytes update_all
    rcases oc with _ | _ <;> simp
    omega
  refine ⟨by unfold update_all; simp, rfl, hlen, ?_, rfl⟩
  rw [hlen]
  unfold frame_count_byte
  exact Int.emod_eq_of_lt (by positivity) (by exact_mod_cast hsize)

/-- Witness for C9 at the repository configuration: the four-sensor table,
calibrated byte disabled, absorbance 1, pseudo-random fraction 1 for every
sensor. -/
theorem frame_integrity_witness :
    (value_bytes OUTPUT_CALIBRATED_A (sensors_table.map (fun s => (s, (1 : ℝ)))) 1).length
      = (if OUTPUT_CALIBRATED_A then 1 else 0)
          + (sensors_table.map (fun s => (s, (1 : ℝ)))).length :=
  (frame_integrity OUTPUT_CALIBRATED_A (sensors_table.map (fun s => (s, (1 : ℝ)))) 1
    (by unfold OUTPUT_CALIBRATED_A sensors_table; simp)).2.2.1

end
